import Mathlib

/- Verification of the two-pass assembler (C sources: decode.c, helpers.c,
   symbolTable.c, order.c, word.c, main.c, macros.c, output.c) through a
   shallow embedding.  C strings are modelled as `List Char`; reading a
   buffer outside its bounds (which the C code does in a few places through
   `space_skip`'s negative return codes, where the running program reads
   zeroed heap bytes next to the line buffer) yields the NUL character.
   Iterating loops are written with an explicit fuel argument; every wrapper
   passes enough fuel for the loop to run to its C exit condition. -/

set_option maxRecDepth 100000

/-- NUL character, the C string terminator. -/
def nulC : Char := Char.ofNat 0

/-- Character of `line` at integer index `i`; NUL at and outside the
    terminator (negative indices read the zero bytes the running program
    finds there). -/
def chAtI (line : List Char) (i : Int) : Char :=
  if i < 0 then nulC else line.getD i.toNat nulC

/-- `line + i` as a list; the empty list for a negative offset. -/
def dropI (line : List Char) (i : Int) : List Char :=
  if i < 0 then [] else line.drop i.toNat

/-- The characters `line[i..j)`. -/
def sliceI (line : List Char) (i j : Int) : List Char :=
  (dropI line i).take (j - i).toNat

/-- C `isdigit` on ASCII. -/
def isDigitC (c : Char) : Bool := '0' ≤ c && c ≤ '9'

/-- C `isalpha` on ASCII. -/
def isAlphaC (c : Char) : Bool := ('a' ≤ c && c ≤ 'z') || ('A' ≤ c && c ≤ 'Z')

/-- C `isalnum` on ASCII. -/
def isAlnumC (c : Char) : Bool := isAlphaC c || isDigitC c

/-- C `isspace` on ASCII. -/
def isSpaceC (c : Char) : Bool :=
  c = ' ' || c = '\t' || c = '\n' || c = '\r' || c = Char.ofNat 11 || c = Char.ofNat 12

/-- C `strncmp(line+i, s, n) == 0` where `s` is a NUL-terminated literal
    given without its terminator (indexing past its end yields NUL, which
    models the terminator; comparison stops at a common NUL). -/
def strncmp_eq : List Char → Int → List Char → Nat → Bool
  | _, _, _, 0 => true
  | line, i, s, n + 1 =>
    let a := chAtI line i
    let b := s.getD 0 nulC
    if a ≠ b then false
    else if a = nulC then true
    else strncmp_eq line (i + 1) (s.drop 1) n

/-- MSB-first binary digits of the low `w` bits of `v`
    (the C loops `str[w-1-i] = ((val >> i) & 1) ? '1' : '0'`). -/
def natBitsMSB (w : Nat) (v : Nat) : List Char :=
  (List.range w).map (fun k => if v >>> (w - 1 - k) &&& 1 = 1 then '1' else '0')

/-- decode.c `decode_number`: 10-bit binary string of `number`.
    C computes `number & 0x3FF`, the low 10 bits of the two's-complement
    representation, i.e. `number` modulo 1024. -/
def decode_number (number : Int) : List Char :=
  natBitsMSB 10 ((number % 1024).toNat)

/-- decode.c `decode_number_in_8_bits`: 8-bit binary string of `number`
    (two's complement for negatives, via the C branch `val = 256 + number`;
    the shifts then read the low 8 bits of the unsigned value). -/
def decode_number_in_8_bits (number : Int) : List Char :=
  let val : Int := if number < 0 then 256 + number else number
  natBitsMSB 8 ((val % 256).toNat)

/-- decode.c `decode_char`: 10-bit unsigned encoding of a character. -/
def decode_char (ch : Char) : List Char :=
  natBitsMSB 10 (ch.toNat % 1024)

/-- decode.c `reg_in_str`: 4-bit binary string of a register number. -/
def reg_in_str (num : Int) : List Char :=
  natBitsMSB 4 ((num % 16).toNat)

/-- decode.c `decode_target_register`: `"0000" ++ reg ++ "00"`. -/
def decode_target_register (number : Int) : List Char :=
  "0000".toList ++ reg_in_str number ++ "00".toList

/-- decode.c `decode_source_register`: `reg ++ "000000"`. -/
def decode_source_register (number : Int) : List Char :=
  reg_in_str number ++ "000000".toList

/-- decode.c `decode_registers`: `reg1 ++ reg2 ++ "00"`. -/
def decode_registers (number1 number2 : Int) : List Char :=
  reg_in_str number1 ++ reg_in_str number2 ++ "00".toList

/-- Digit-accumulating loop of decode.c `str_to_int`. -/
def str_to_int_digits : List Char → Int → Int
  | [], acc => acc
  | c :: rest, acc =>
    if isDigitC c then str_to_int_digits rest (acc * 10 + ((c.toNat : Int) - ('0'.toNat : Int)))
    else acc

/-- decode.c `str_to_int`: optional sign then digits, stopping at the first
    non-digit. -/
def str_to_int (s : List Char) : Int :=
  match s with
  | '-' :: rest => -(str_to_int_digits rest 0)
  | '+' :: rest => str_to_int_digits rest 0
  | _ => str_to_int_digits s 0

/-- Value of an MSB-first binary character string, read as unsigned. -/
def bits_to_nat (s : List Char) : Nat :=
  s.foldl (fun acc c => acc * 2 + (if c = '1' then 1 else 0)) 0

/-- Reading a 10-character binary string as a 10-bit two's-complement
    integer (the interpretation named by the specification). -/
def tc10_value (s : List Char) : Int :=
  let u := bits_to_nat s
  if 512 ≤ u then (u : Int) - 1024 else (u : Int)

theorem bits_to_nat_natBitsMSB10 : ∀ m : Nat, m < 1024 → bits_to_nat (natBitsMSB 10 m) = m := by
  decide

/-- C9: for every integer n in [-512, 511], interpreting the 10-character
    string produced by `decode_number` as a 10-bit two's-complement value
    yields n again. -/
theorem claim9_decode_number_roundtrip (n : Int) (h1 : -512 ≤ n) (h2 : n ≤ 511) :
    tc10_value (decode_number n) = n := by
  have hlt : (n % 1024).toNat < 1024 := by omega
  simp only [decode_number, tc10_value]
  rw [bits_to_nat_natBitsMSB10 _ hlt]
  omega

/-- Witness for C9 at n = -5. -/
theorem claim9_decode_number_roundtrip_witness :
    tc10_value (decode_number (-5)) = -5 :=
  claim9_decode_number_roundtrip (-5) (by decide) (by decide)

/- ===== helpers.c ===== -/

/-- The whitespace loop of helpers.c `space_skip` (spaces and tabs). -/
def space_skip_loop : Nat → List Char → Int → Int
  | 0, _, i => i
  | fuel + 1, line, i =>
    if chAtI line i = ' ' ∨ chAtI line i = '\t' then space_skip_loop fuel line (i + 1) else i

/-- helpers.c `space_skip`: skip spaces and tabs; then -2 at end of line,
    -1 at a comma, -3 at '[', otherwise the reached index. -/
def space_skip (line : List Char) (i : Int) : Int :=
  let j := space_skip_loop (line.length + 1) line i
  let c := chAtI line j
  if c = '\n' ∨ c = '\r' ∨ c = nulC then -2
  else if c = ',' then -1
  else if c = '[' then -3
  else j

/-- The alphanumeric run loop of helpers.c `is_symbol`. -/
def is_symbol_loop : Nat → List Char → Int → Int
  | 0, _, i => i
  | fuel + 1, line, i =>
    if isAlnumC (chAtI line i) then is_symbol_loop fuel line (i + 1) else i

/-- helpers.c `is_symbol`: index one past a leading-letter alphanumeric run
    ending at a valid delimiter; 0 otherwise. -/
def is_symbol (line : List Char) (i : Int) : Int :=
  if ¬ isAlphaC (chAtI line i) then 0
  else
    let j := is_symbol_loop (line.length + 1) line i
    let c := chAtI line j
    if c = ':' ∨ c = '\n' ∨ c = '\r' ∨ c = ',' ∨ c = '[' ∨ c = ' ' ∨ c = nulC then j else 0

/-- helpers.c `is_symbol_definition`: a symbol immediately followed by ':'. -/
def is_symbol_definition (line : List Char) (i : Int) : Int :=
  let symbol_end := is_symbol line i
  if symbol_end > 0 ∧ chAtI line symbol_end = ':' then symbol_end else 0

/-- helpers.c `is_directive`.  The C compares with `strncmp` lengths
    5, 7, 4, 7 and 6, so only the directive keywords themselves (without
    the trailing blank of the literals) are required to match. -/
def is_directive (line : List Char) (i : Int) : Nat :=
  if strncmp_eq line i ".data ".toList 5 then 1
  else if strncmp_eq line i ".string ".toList 7 then 2
  else if strncmp_eq line i ".mat ".toList 4 then 3
  else if strncmp_eq line i ".extern ".toList 7 then 4
  else if strncmp_eq line i ".entry ".toList 6 then 5
  else 0

/-- The digit run loop of helpers.c `is_number`. -/
def is_number_digits : Nat → List Char → Int → Int
  | 0, _, i => i
  | fuel + 1, line, i =>
    if isDigitC (chAtI line i) then is_number_digits fuel line (i + 1) else i

/-- helpers.c `is_number`: optional sign, at least one digit, then one of
    end of string, newline, carriage return, space or comma. -/
def is_number (line : List Char) (index : Int) : Bool :=
  let i := if chAtI line index = '+' ∨ chAtI line index = '-' then index + 1 else index
  if ¬ isDigitC (chAtI line i) then false
  else
    let j := is_number_digits (line.length + 1) line i
    let c := chAtI line j
    if c = nulC ∨ c = '\n' ∨ c = '\r' ∨ c = ' ' ∨ c = ',' then true else false

/-- helpers.c `is_register`: r0-r7 classified by the following character:
    1 before a comma (source position), 2 before end of line, 3 before ']';
    0 otherwise.  The C guard `i >= strlen(line) - 1` is a size_t
    comparison, so it never fires on an empty line. -/
def is_register (line : List Char) (i : Int) : Int :=
  if i < 0 then 0
  else if 0 < line.length ∧ (line.length : Int) - 1 ≤ i then 0
  else if chAtI line i = 'r' ∧ '0' ≤ chAtI line (i + 1) ∧ chAtI line (i + 1) ≤ '7' then
    let j := i + 2
    if (line.length : Int) ≤ j ∨ isAlnumC (chAtI line j) then 0
    else
      let sk := space_skip line j
      if sk = -2 then 2
      else if sk = -1 then 1
      else if chAtI line j = ']' then 3
      else if chAtI line j = '\n' ∨ chAtI line j = nulC then 2
      else 0
  else 0

/-- helpers.c `is_mat_operand`: a symbol followed by two bracketed register
    indices (the C `for (j = 0; j < 2; j++)` loop, unrolled); 1 before a
    comma, 2 before end of line, 0 otherwise. -/
def is_mat_operand (line : List Char) (i : Int) : Int :=
  let i1 := is_symbol line i
  if i1 = 0 then 0
  else if chAtI line i1 ≠ '[' then 0
  else if is_register line (i1 + 1) ≠ 3 then 0
  else
    let i2 := i1 + 1 + 3
    if chAtI line i2 ≠ '[' then 0
    else if is_register line (i2 + 1) ≠ 3 then 0
    else
      let i3 := i2 + 1 + 3
      if space_skip line i3 = -1 then 1
      else if space_skip line i3 = -2 then 2
      else 0

/-- The collection loop of helpers.c `is_direct` (`j <= MAX_NUM_LENGTH`). -/
def is_direct_collect : Nat → List Char → Int → Nat → (List Char × Int)
  | 0, _, i, _ => ([], i)
  | fuel + 1, line, i, j =>
    let c := chAtI line i
    if c ≠ '\n' ∧ c ≠ '\r' ∧ c ≠ ',' ∧ c ≠ ' ' ∧ j ≤ 4 ∧ c ≠ nulC then
      let r := is_direct_collect fuel line (i + 1) (j + 1)
      (c :: r.1, r.2)
    else ([], i)

/-- helpers.c `is_direct`: '#' followed by a valid number; 1 before a comma,
    2 before end of line, 0 otherwise. -/
def is_direct (line : List Char) (i : Int) : Int :=
  if chAtI line i ≠ '#' then 0
  else
    let r := is_direct_collect (line.length + 1) line (i + 1) 0
    if ¬ is_number r.1 0 then 0
    else if space_skip line r.2 = -1 then 1
    else if space_skip line r.2 = -2 then 2
    else 0

/-- C comparison `i < strlen(line)` (a size_t comparison: false for
    negative `i`). -/
def ltLen (line : List Char) (i : Int) : Prop := 0 ≤ i ∧ i < (line.length : Int)

instance (line : List Char) (i : Int) : Decidable (ltLen line i) := by
  unfold ltLen; infer_instance

/-- First scanning pass of helpers.c `contains_invalid_commas`:
    (invalid, last_char_comma, comma_found). -/
def cic_pass1 : Nat → List Char → Int → Bool → Bool → (Bool × Bool × Bool)
  | 0, _, _, lcc, cf => (false, lcc, cf)
  | fuel + 1, line, i, lcc, cf =>
    let c := chAtI line i
    if c = '\n' ∨ c = nulC then (false, lcc, cf)
    else if c = ',' then
      if lcc then (true, lcc, cf) else cic_pass1 fuel line (i + 1) true true
    else if c ≠ ' ' ∧ c ≠ '\t' then cic_pass1 fuel line (i + 1) false cf
    else cic_pass1 fuel line (i + 1) lcc cf

/-- Bounded whitespace skip `while (i < strlen(line) && (' '||'\t')) i++`. -/
def cic_skipws : Nat → List Char → Int → Int
  | 0, _, i => i
  | fuel + 1, line, i =>
    if ltLen line i ∧ (chAtI line i = ' ' ∨ chAtI line i = '\t') then cic_skipws fuel line (i + 1) else i

/-- Bounded digit skip `while (i < strlen(line) && isdigit(line[i])) i++`. -/
def cic_skipdigits : Nat → List Char → Int → Int
  | 0, _, i => i
  | fuel + 1, line, i =>
    if ltLen line i ∧ isDigitC (chAtI line i) then cic_skipdigits fuel line (i + 1) else i

/-- Second scanning pass of helpers.c `contains_invalid_commas` (missing
    comma between two numbers). -/
def cic_pass2 : Nat → List Char → Int → Bool
  | 0, _, _ => false
  | fuel + 1, line, i =>
    if ¬ ltLen line i ∨ chAtI line i = '\n' ∨ chAtI line i = nulC then false
    else
      let i1 := cic_skipws (line.length + 1) line i
      if ¬ ltLen line i1 ∨ chAtI line i1 = '\n' ∨ chAtI line i1 = nulC then false
      else if chAtI line i1 = '-' ∨ chAtI line i1 = '+' ∨ isDigitC (chAtI line i1) then
        let i2 := if chAtI line i1 = '-' ∨ chAtI line i1 = '+' then i1 + 1 else i1
        let i3 := cic_skipdigits (line.length + 1) line i2
        let i4 := cic_skipws (line.length + 1) line i3
        if ltLen line i4 ∧ chAtI line i4 ≠ '\n' ∧ chAtI line i4 ≠ nulC ∧ chAtI line i4 ≠ ',' ∧
           (chAtI line i4 = '-' ∨ chAtI line i4 = '+' ∨ isDigitC (chAtI line i4)) then true
        else cic_pass2 fuel line i4
      else cic_pass2 fuel line (i + 1)

/-- helpers.c `contains_invalid_commas`: leading, trailing or double comma,
    or a missing comma between two values. -/
def contains_invalid_commas (line : List Char) (index : Int) : Bool :=
  let i := space_skip_loop (line.length + 1) line index
  if chAtI line i = ',' then true
  else
    let p1 := cic_pass1 (line.length + 2) line i false false
    if p1.1 then true
    else if p1.2.1 ∧ p1.2.2 then true
    else cic_pass2 (line.length + 2) line (space_skip_loop (line.length + 1) line index)

/-- The number-collecting loop of helpers.c
    `is_legal_data_or_matrix_initialization` (collected characters, final
    index, final j). -/
def illegal_read_tmp : Nat → List Char → Int → Nat → (List Char × Int × Nat)
  | 0, _, i, j => ([], i, j)
  | fuel + 1, line, i, j =>
    let c := chAtI line i
    if ¬ isSpaceC c ∧ c ≠ ',' ∧ c ≠ nulC ∧ c ≠ '\n' ∧ j ≤ 4 then
      let r := illegal_read_tmp fuel line (i + 1) (j + 1)
      (c :: r.1, r.2.1, r.2.2)
    else ([], i, j)

/-- Outer loop of helpers.c `is_legal_data_or_matrix_initialization`:
    numbers separated by single commas, no leading/trailing/double comma.
    The post-number `i = space_skip(line, i)` can leave a negative index,
    which then reads NUL and makes the loop accept the rest of the line. -/
def is_legal_data_loop : Nat → List Char → Int → Bool
  | 0, _, _ => true
  | fuel + 1, line, i0 =>
    if chAtI line i0 = nulC ∨ chAtI line i0 = '\n' then true
    else
      let i1 := space_skip line i0
      if chAtI line i1 = ',' then false
      else
        let r := illegal_read_tmp (line.length + 1) line i1 0
        if r.2.2 = 0 then false
        else if r.2.2 > 4 then false
        else if ¬ is_number r.1 0 then false
        else
          let i3 := space_skip line r.2.1
          if chAtI line i3 = ',' then
            let i4 := space_skip line (i3 + 1)
            if chAtI line i4 = nulC ∨ chAtI line i4 = '\n' then false
            else if chAtI line i4 = ',' then false
            else is_legal_data_loop fuel line i4
          else if chAtI line i3 ≠ nulC ∧ chAtI line i3 ≠ '\n' then false
          else true

/-- helpers.c `is_legal_data_or_matrix_initialization`. -/
def is_legal_data_or_matrix_initialization (line : List Char) (i : Int) : Bool :=
  is_legal_data_loop (line.length + 2) line i

/-- Scan loop `while (line[i] != '\0' && line[i] != '"') i++`. -/
def ils_scan : Nat → List Char → Int → Int
  | 0, _, i => i
  | fuel + 1, line, i =>
    if chAtI line i ≠ nulC ∧ chAtI line i ≠ '"' then ils_scan fuel line (i + 1) else i

/-- helpers.c `is_legal_string`: quote-delimited, nothing but whitespace
    after the closing quote. -/
def is_legal_string (line : List Char) (i : Int) : Bool :=
  if chAtI line i ≠ '"' then false
  else
    let j := ils_scan (line.length + 1) line (i + 1)
    if chAtI line j ≠ '"' then false
    else
      let k := space_skip line (j + 1)
      if chAtI line k ≠ nulC then false else true

/-- The dimension-collecting loop of helpers.c `is_legal_mat`
    (`j < MAX_NUM_LENGTH`). -/
def ilm_collect : Nat → List Char → Int → Nat → (List Char × Int)
  | 0, _, i, _ => ([], i)
  | fuel + 1, line, i, j =>
    let c := chAtI line i
    if c ≠ nulC ∧ c ≠ ']' ∧ j < 4 then
      let r := ilm_collect fuel line (i + 1) (j + 1)
      (c :: r.1, r.2)
    else ([], i)

/-- helpers.c `is_legal_mat`: two bracketed positive integer dimensions,
    then a legal value initialization. -/
def is_legal_mat (line : List Char) (i : Int) : Bool :=
  if chAtI line i ≠ '[' then false
  else
    let r1 := ilm_collect (line.length + 1) line (i + 1) 0
    if chAtI line r1.2 ≠ ']' then false
    else if ¬ is_number r1.1 0 then false
    else if str_to_int r1.1 ≤ 0 then false
    else
      let i2 := r1.2 + 1
      if chAtI line i2 ≠ '[' then false
      else
        let r2 := ilm_collect (line.length + 1) line (i2 + 1) 0
        if chAtI line r2.2 ≠ ']' then false
        else if ¬ is_number r2.1 0 then false
        else if str_to_int r2.1 ≤ 0 then false
        else is_legal_data_or_matrix_initialization line (space_skip line (r2.2 + 1))

/-- The unguarded `while (line[index] != '[') index++` of helpers.c
    `save_place` (the callers guarantee a '[' is present). -/
def sp_scanbr : Nat → List Char → Int → Int
  | 0, _, i => i
  | fuel + 1, line, i => if chAtI line i ≠ '[' then sp_scanbr fuel line (i + 1) else i

/-- helpers.c `save_place`: extracts the two matrix dimensions and returns
    rows * columns, or -1 when a dimension is negative. -/
def save_place (line : List Char) : Int :=
  let i1 := sp_scanbr (line.length + 2) line 0 + 1
  let i2 := space_skip line i1
  let num1 := str_to_int (dropI line i2)
  let i3 := sp_scanbr (line.length + 2) line i2 + 1
  let i4 := space_skip line i3
  let num2 := str_to_int (dropI line i4)
  if num1 < 0 ∨ num2 < 0 then -1 else num1 * num2

/- ===== order.c ===== -/

/-- order.c `ORDERS_TABLE`: the sixteen mnemonics. -/
def ORDERS_TABLE : List (List Char) :=
  ["mov".toList, "cmp".toList, "add".toList, "sub".toList, "lea".toList,
   "clr".toList, "not".toList, "inc".toList, "dec".toList, "jmp".toList,
   "bne".toList, "jsr".toList, "red".toList, "prn".toList, "rts".toList,
   "stop".toList]

/-- The search loop of order.c `opcode_in_decimal`: a 3-character prefix
    match or a 4-character match (which, for 3-letter mnemonics, includes
    the terminator of the table literal). -/
def opcode_in_decimal_loop (line : List Char) (index : Int) : List (List Char) → Int → Int
  | [], _ => -1
  | t :: rest, k =>
    if strncmp_eq line index t 3 || strncmp_eq line index t 4 then k
    else opcode_in_decimal_loop line index rest (k + 1)

/-- order.c `opcode_in_decimal`: opcode of the mnemonic at `index`,
    or -1. -/
def opcode_in_decimal (line : List Char) (index : Int) : Int :=
  opcode_in_decimal_loop line index ORDERS_TABLE 0

/-- order.c `addressing_method`: 0 immediate, 3 register, 2 matrix,
    1 direct, -1 invalid (tested in this order). -/
def addressing_method (line : List Char) (i : Int) : Int :=
  if is_direct line i = 1 ∨ is_direct line i = 2 then 0
  else if is_register line i ≠ 0 then 3
  else if is_mat_operand line i ≠ 0 then 2
  else if is_symbol line i ≠ 0 then 1
  else -1

/-- order.c `number_of_lines`: total word count of an instruction from the
    two addressing modes.  The C returns early only in the
    register/register case; otherwise the destination contribution is
    added after the source contribution. -/
def number_of_lines (operand1 operand2 : Int) : Int :=
  let l1 : Int :=
    if operand1 = 0 ∨ operand1 = 1 then 1 + 1
    else if operand1 = 2 then 1 + 2
    else if operand1 = 3 then 1 + 1
    else 1
  if operand1 = 3 ∧ operand2 = 3 then l1
  else if operand2 = 0 ∨ operand2 = 1 ∨ operand2 = 3 then l1 + 1
  else if operand2 = 2 then l1 + 2
  else l1

/-- order.c `number_of_operands`: 2 for opcodes 0..4, 1 for 5..13,
    0 otherwise. -/
def number_of_operands (op : Int) : Int :=
  if op > -1 ∧ op < 5 then 2
  else if op > 4 ∧ op < 14 then 1
  else 0

/-- decode.c `validate_operands` (0 = valid, 1 = error), per opcode
    class. -/
def validate_operands (opcode operand1 operand2 : Int) : Int :=
  if opcode = 14 ∨ opcode = 15 then
    if operand1 ≠ -1 ∨ operand2 ≠ -1 then 1 else 0
  else if 0 ≤ opcode ∧ opcode ≤ 3 then
    if operand1 < 0 ∨ operand1 > 3 then 1
    else if operand2 < 0 ∨ operand2 > 3 then 1
    else if (opcode = 0 ∨ opcode = 2 ∨ opcode = 3) ∧ (operand2 = 0 ∨ operand2 = 2) then 1
    else 0
  else if opcode = 4 then
    if operand1 ≠ 1 ∧ operand1 ≠ 2 then 1
    else if operand2 ≠ 1 ∧ operand2 ≠ 2 ∧ operand2 ≠ 3 then 1
    else 0
  else if opcode > 4 ∧ opcode < 13 then
    if operand1 ≠ -1 then 1
    else if operand2 ≠ 1 ∧ operand2 ≠ 2 ∧ operand2 ≠ 3 then 1
    else 0
  else if opcode = 13 then
    if operand1 ≠ -1 then 1
    else if operand2 < 0 ∨ operand2 > 3 then 1
    else 0
  else 1

/- ===== word.c / order.c data structures ===== -/

/-- word.c `Word`: a 10-character binary word with an address and a type
    (0 = data, 1 = instruction). -/
structure Wd where
  word : List Char
  address : Int
  wtype : Int
deriving DecidableEq, Repr

/-- The pass-one placeholder word. -/
def placeholder10 : List Char := "0000000000".toList

/-- order.h `Order`: one assembly instruction. -/
structure Order where
  IC : Int
  opcode : Int
  operand1 : Int
  operand2 : Int
  number_of_words : Int
  symbol_flag : Int
  symbol_name1 : Option (List Char)
  symbol_name2 : Option (List Char)
  words : List Wd
deriving DecidableEq, Repr

/-- order.c `new_order`: fresh order for an opcode (operands initialized
    to 0). -/
def new_order (op : Int) : Order :=
  { IC := 0, opcode := op, operand1 := 0, operand2 := 0, number_of_words := 0,
    symbol_flag := 0, symbol_name1 := none, symbol_name2 := none, words := [] }

/-- order.c `add_word_to_order`: the first word gets the order's IC as its
    address, later words the previous word's address plus one. -/
def add_word_to_order (order : Order) (w : Wd) : Order :=
  match order.words with
  | [] => { order with words := [{ w with address := order.IC }] }
  | _ =>
    let last := order.words.getLastD { word := [], address := 0, wtype := 0 }
    { order with words := order.words ++ [{ w with address := last.address + 1 }] }

/-- decode.c `decode_order_first_word`: opcode bits 9..6, source mode bits
    5..4, destination mode bits 3..2, reserved "00" (the mode fields read
    the low two characters of the 10-bit encodings of `operand1` and
    `operand2`, which hold their values at call time). -/
def decode_order_first_word (order : Order) : Order :=
  let str := (decode_number order.opcode).drop 6 ++ (decode_number order.operand1).drop 8
             ++ (decode_number order.operand2).drop 8 ++ "00".toList
  add_word_to_order order { word := str, address := 0, wtype := 1 }

/-- Scan `while (i < strlen(line) && line[i] != target) i++`. -/
def scan_to (target : Char) : Nat → List Char → Int → Int
  | 0, _, i => i
  | fuel + 1, line, i =>
    if ltLen line i ∧ chAtI line i ≠ target then scan_to target fuel line (i + 1) else i

/-- Scan `while (line[i] != target && line[i] != '\0') i++`. -/
def scan_to_nul (target : Char) : Nat → List Char → Int → Int
  | 0, _, i => i
  | fuel + 1, line, i =>
    if chAtI line i ≠ target ∧ chAtI line i ≠ nulC then scan_to_nul target fuel line (i + 1) else i

/-- The digit run inside a matrix bracket of decode.c `decode_operand`
    (digits collected, final index, final length). -/
def mat_digit_run : Nat → List Char → Int → Nat → (List Char × Int × Nat)
  | 0, _, i, len => ([], i, len)
  | fuel + 1, line, i, len =>
    if ltLen line i ∧ isDigitC (chAtI line i) ∧ len < 9 then
      let r := mat_digit_run fuel line (i + 1) (len + 1)
      (chAtI line i :: r.1, r.2.1, r.2.2)
    else ([], i, len)

/-- The register-number extraction of decode.c `decode_operand`: walk one
    bracket's contents, collecting the digits that follow each 'r'. -/
def mat_reg_extract : Nat → List Char → Int → Nat → List Char
  | 0, _, _, _ => []
  | fuel + 1, line, i, len =>
    if ltLen line i ∧ chAtI line i ≠ ']' ∧ len < 9 then
      if chAtI line i = 'r' then
        let r := mat_digit_run (fuel + 1) line (i + 1) len
        r.1 ++ mat_reg_extract fuel line r.2.1 r.2.2
      else mat_reg_extract fuel line (i + 1) len
    else []

/-- decode.c `decode_operand`: appends the operand's word(s) to the order
    and records symbol information.  On the paths where the C process
    calls exit(1) (index out of bounds, invalid immediate, invalid symbol)
    the order is returned unchanged. -/
def decode_operand (order : Order) (line : List Char) (index : Int) : Order :=
  if index < 0 ∨ (line.length : Int) ≤ index then order
  else if chAtI line index = '#' then
    if is_number line (index + 1) then
      let num := str_to_int (dropI line (index + 1))
      add_word_to_order order
        { word := decode_number_in_8_bits num ++ "00".toList, address := 0, wtype := 0 }
    else order
  else if is_register line index = 1 then
    add_word_to_order order
      { word := decode_source_register (str_to_int (dropI line (index + 1))), address := 0, wtype := 0 }
  else if is_register line index = 2 then
    add_word_to_order order
      { word := decode_target_register (str_to_int (dropI line (index + 1))), address := 0, wtype := 0 }
  else
    let index2 := is_symbol line index
    if index2 ≤ 0 then order
    else
      let symbol_name := sliceI line index index2
      let o1 : Order := { order with symbol_flag := 1 }
      let matword : Option (List Char) :=
        if is_mat_operand line index ≠ 0 then
          let ri := scan_to '[' (line.length + 2) line index2
          if chAtI line ri = '[' then
            let reg1_start := ri + 1
            let ri2 := scan_to ']' (line.length + 2) line reg1_start
            if chAtI line ri2 = ']' then
              if chAtI line (ri2 + 1) = '[' then
                let reg2_start := ri2 + 2
                let ri3 := scan_to ']' (line.length + 2) line reg2_start
                if chAtI line ri3 = ']' then
                  some (decode_registers
                    (str_to_int (mat_reg_extract (line.length + 2) line reg1_start 0))
                    (str_to_int (mat_reg_extract (line.length + 2) line reg2_start 0)))
                else none
              else none
            else none
          else none
        else none
      let o2 : Order :=
        if o1.symbol_name1 = none ∧ (o1.operand1 = 2 ∨ o1.operand1 = 1) then
          { o1 with symbol_name1 := some symbol_name }
        else
          { o1 with symbol_name2 := some symbol_name }
      let o3 := add_word_to_order o2 { word := placeholder10, address := 0, wtype := 0 }
      match matword with
      | some w2 => add_word_to_order o3 { word := w2, address := 0, wtype := 0 }
      | none => o3

/-- Scan `while (line[index] != ',' && line[index] != '\n' &&
    line[index] != '\0') index++`. -/
def dd_skip_to_comma : Nat → List Char → Int → Int
  | 0, _, i => i
  | fuel + 1, line, i =>
    if chAtI line i ≠ ',' ∧ chAtI line i ≠ '\n' ∧ chAtI line i ≠ nulC then
      dd_skip_to_comma fuel line (i + 1)
    else i

/-- The value loop of decode.c `decode_data` for `.data` (words appended,
    final DC). -/
def decode_data_values : Nat → List Char → Int → Int → (List Wd × Int)
  | 0, _, _, DC => ([], DC)
  | fuel + 1, line, index, DC =>
    if chAtI line index = '\n' ∨ chAtI line index = nulC then ([], DC)
    else
      let i1 := space_skip line index
      if chAtI line i1 = '\n' ∨ chAtI line i1 = nulC then ([], DC)
      else if ¬ isDigitC (chAtI line i1) ∧ chAtI line i1 ≠ '-' ∧ chAtI line i1 ≠ '+' then ([], DC)
      else
        let w : Wd := { word := decode_number (str_to_int (dropI line i1)), address := DC, wtype := 0 }
        let i2 := dd_skip_to_comma (line.length + 2) line i1
        let i3 := if chAtI line i2 = ',' then i2 + 1 else i2
        let r := decode_data_values fuel line i3 (DC + 1)
        (w :: r.1, r.2)

/-- The value loop of decode.c `decode_data` for `.mat` (words appended,
    final DC). -/
def mat_data_values : Nat → List Char → Int → Int → (List Wd × Int)
  | 0, _, _, DC => ([], DC)
  | fuel + 1, line, index, DC =>
    if chAtI line index = '\n' ∨ chAtI line index = nulC then ([], DC)
    else
      let i1 := space_skip line index
      if ¬ isDigitC (chAtI line i1) ∧ chAtI line i1 ≠ '-' ∧ chAtI line i1 ≠ '+' then ([], DC)
      else
        let w : Wd := { word := decode_number (str_to_int (dropI line i1)), address := DC, wtype := 0 }
        let i2 := dd_skip_to_comma (line.length + 2) line i1
        let i3 := if chAtI line i2 = ',' then i2 + 1 else i2
        let r := mat_data_values fuel line i3 (DC + 1)
        (w :: r.1, r.2)

/-- The character loop of decode.c `decode_data` for `.string`. -/
def string_chars : Nat → List Char → Int → Int → (List Wd × Int)
  | 0, _, _, DC => ([], DC)
  | fuel + 1, line, index, DC =>
    if chAtI line index ≠ '"' ∧ chAtI line index ≠ nulC then
      let w : Wd := { word := decode_char (chAtI line index), address := DC, wtype := 0 }
      let r := string_chars fuel line (index + 1) (DC + 1)
      (w :: r.1, r.2)
    else ([], DC)

/-- decode.c `decode_data`: processing of `.data` (directive 1), `.string`
    (2) and `.mat` (3); `none` models the C return value -1 (error), and
    `some (words, DC)` the data words appended with the new data counter. -/
def decode_data (line : List Char) (index0 : Int) (directive : Nat) (DC : Int) :
    Option (List Wd × Int) :=
  if directive = 1 then
    let index := index0 + 5
    if contains_invalid_commas line index then none
    else if ¬ is_legal_data_or_matrix_initialization line index then none
    else some (decode_data_values (line.length + 2) line index DC)
  else if directive = 2 then
    let index := space_skip line (index0 + 7)
    if ¬ is_legal_string line index then none
    else
      let r := string_chars (line.length + 2) line (index + 1) DC
      some (r.1 ++ [{ word := placeholder10, address := r.2, wtype := 0 }], r.2 + 1)
  else if directive = 3 then
    let index1 := scan_to_nul '[' (line.length + 2) line (index0 + 4)
    let d1 := scan_to '[' (line.length + 2) line index1
    let d2 := if chAtI line d1 = '[' then d1 + 1 else d1
    let d3 := scan_to ']' (line.length + 2) line d2
    let d4 := if chAtI line d3 = ']' then d3 + 1 else d3
    let d5 := scan_to '[' (line.length + 2) line d4
    let d6 := if chAtI line d5 = '[' then d5 + 1 else d5
    let d7 := scan_to ']' (line.length + 2) line d6
    let dim_end := if chAtI line d7 = ']' then d7 + 1 else d7
    let data_start := space_skip line dim_end
    if ltLen line data_start ∧ chAtI line data_start ≠ '\n' ∧ chAtI line data_start ≠ nulC ∧
       contains_invalid_commas line data_start then none
    else if ¬ is_legal_mat line index1 then none
    else
      let e1 := scan_to_nul ']' (line.length + 2) line index1
      let e2 := if chAtI line e1 = ']' then e1 + 1 else e1
      let e3 := scan_to_nul ']' (line.length + 2) line e2
      let e4 := if chAtI line e3 = ']' then e3 + 1 else e3
      let idx := space_skip line e4
      if chAtI line idx = '\n' ∨ chAtI line idx = nulC then
        let cells := save_place line
        if cells ≠ -1 then some ([], DC + cells) else some ([], DC)
      else
        some (mat_data_values (line.length + 2) line idx DC)
  else some ([], DC)

/- ===== symbolTable.c ===== -/

/-- symbolTable.h `Symbol`: name, address value, and type (1 = data,
    2 = code, 3 = entry, 4 = extern). -/
structure SymEnt where
  name : List Char
  value : Int
  type : Int
deriving DecidableEq, Repr

/-- symbolTable.c `search_symbol`: first entry with the given name. -/
def search_symbol : List SymEnt → List Char → Option SymEnt
  | [], _ => none
  | s :: rest, name => if s.name = name then some s else search_symbol rest name

/-- main.c second pass `set_type(search_symbol(...), 3)`: update the type
    of the first entry with the given name. -/
def set_type_first : List SymEnt → List Char → Int → List SymEnt
  | [], _, _ => []
  | s :: rest, name, t =>
    if s.name = name then { s with type := t } :: rest
    else s :: set_type_first rest name t

/-- symbolTable.c `update_data_symbols_value`: add ICF to the value of
    every data symbol (type 1). -/
def update_data_symbols_value (syms : List SymEnt) (ICF : Int) : List SymEnt :=
  syms.map (fun s => if s.type = 1 then { s with value := s.value + ICF } else s)

/-- word.c `update_data`: shift every data word address by IC. -/
def update_data (ws : List Wd) (IC : Int) : List Wd :=
  ws.map (fun w => { w with address := w.address + IC })

/- ===== main.c global state and first pass ===== -/

/-- The file-scope globals of main.c. -/
structure AsmState where
  symbols : List SymEnt
  orders : List Order
  dwords : List Wd
  externals : List SymEnt
  IC : Int
  DC : Int
  entries_flag : Int
  error : Bool
deriving DecidableEq, Repr

/-- The initial values of main.c's globals: empty lists, IC = 100, DC = 0,
    entries_flag = 0. -/
def initial_state : AsmState :=
  { symbols := [], orders := [], dwords := [], externals := [],
    IC := 100, DC := 0, entries_flag := 0, error := false }

/-- main.c `end_system`: frees and clears the symbol tables, order list and
    data list and resets IC to 100 and DC to 0.  (It does not touch
    `entries_flag`.) -/
def end_system (s : AsmState) : AsmState :=
  { s with symbols := [], externals := [], orders := [], dwords := [],
           IC := 100, DC := 0 }

/-- The leading `while (line[index] == ' ') index++` of main.c
    `first_scan` (spaces only). -/
def skip_spaces_only : Nat → List Char → Int → Int
  | 0, _, i => i
  | fuel + 1, line, i =>
    if chAtI line i = ' ' then skip_spaces_only fuel line (i + 1) else i

/-- The operand-token scan of main.c `first_scan` (bounded by strlen). -/
def token_end : Nat → List Char → Int → Int
  | 0, _, i => i
  | fuel + 1, line, i =>
    if ltLen line i ∧ chAtI line i ≠ ' ' ∧ chAtI line i ≠ '\t' ∧ chAtI line i ≠ '\n' ∧
       chAtI line i ≠ '\r' ∧ chAtI line i ≠ nulC then token_end fuel line (i + 1)
    else i

/-- The trailing-blank scan of main.c `first_scan` (bounded by strlen). -/
def spaces_end : Nat → List Char → Int → Int
  | 0, _, i => i
  | fuel + 1, line, i =>
    if ltLen line i ∧ (chAtI line i = ' ' ∨ chAtI line i = '\t') then spaces_end fuel line (i + 1)
    else i

/-- The comma search of main.c `first_scan` (bounded by strlen). -/
def comma_scan : Nat → List Char → Int → Int
  | 0, _, i => i
  | fuel + 1, line, i =>
    if ltLen line i ∧ chAtI line i ≠ ',' ∧ chAtI line i ≠ '\n' ∧ chAtI line i ≠ nulC then
      comma_scan fuel line (i + 1)
    else i

/-- The instruction part of main.c `first_scan` (lines after the opcode has
    been resolved): operand parsing, word emission and the IC update.  On
    each error path the C code leaves the partially built order in the
    list, sets the error flag and continues with the next line. -/
def first_scan_instr (st : AsmState) (line : List Char) (index : Int) (op : Int) : AsmState :=
  let num_of_ops := number_of_operands op
  let order0 : Order := { new_order op with IC := st.IC }
  if num_of_ops = 0 then
    let bad : Bool :=
      if op = 15 then decide (space_skip line (index + 4) ≠ -2)
      else decide (space_skip line (index + 3) ≠ -1)
    if bad then { st with orders := st.orders ++ [order0], error := true }
    else
      let o1 := decode_order_first_word order0
      let o2 := { o1 with operand1 := -1, operand2 := -1, number_of_words := 1 }
      if validate_operands o2.opcode o2.operand1 o2.operand2 ≠ 0 then
        { st with orders := st.orders ++ [o2], error := true }
      else { st with orders := st.orders ++ [o2], IC := st.IC + 1 }
  else
    let index := space_skip line (index + 3)
    if num_of_ops = 1 then
      let o1 := { order0 with operand2 := addressing_method line index }
      let o2 := decode_order_first_word o1
      let o3 := { o2 with operand1 := -1 }
      let e1 := token_end (line.length + 2) line index
      let e2 := spaces_end (line.length + 2) line e1
      if ltLen line e2 ∧ chAtI line e2 ≠ '\n' ∧ chAtI line e2 ≠ '\r' ∧ chAtI line e2 ≠ nulC then
        { st with orders := st.orders ++ [o3], error := true }
      else
        let L := number_of_lines o3.operand1 o3.operand2
        let o4 := { o3 with number_of_words := L, IC := st.IC }
        let o5 := decode_operand o4 line index
        if validate_operands o5.opcode o5.operand1 o5.operand2 ≠ 0 then
          { st with orders := st.orders ++ [o5], error := true }
        else { st with orders := st.orders ++ [o5], IC := st.IC + L }
    else
      let o1 := { order0 with operand1 := addressing_method line index }
      let c1 := comma_scan (line.length + 2) line index
      if ¬ ltLen line c1 ∨ chAtI line c1 ≠ ',' then
        { st with orders := st.orders ++ [o1], error := true }
      else
        let index2 := space_skip line (c1 + 1)
        let o2 := { o1 with operand2 := addressing_method line index2 }
        let e1 := token_end (line.length + 2) line index2
        let e2 := spaces_end (line.length + 2) line e1
        if ltLen line e2 ∧ chAtI line e2 ≠ '\n' ∧ chAtI line e2 ≠ '\r' ∧ chAtI line e2 ≠ nulC then
          { st with orders := st.orders ++ [o2], error := true }
        else
          let L := number_of_lines o2.operand1 o2.operand2
          let o3 := { o2 with number_of_words := L, IC := st.IC }
          let o4 := decode_order_first_word o3
          let o5 :=
            if o4.operand1 = 3 ∧ o4.operand2 = 3 then
              add_word_to_order o4
                { word := decode_registers (str_to_int (dropI line (index + 1)))
                    (str_to_int (dropI line (index2 + 1))), address := 0, wtype := 0 }
            else
              decode_operand (decode_operand o4 line index) line index2
          if validate_operands o5.opcode o5.operand1 o5.operand2 ≠ 0 then
            { st with orders := st.orders ++ [o5], error := true }
          else { st with orders := st.orders ++ [o5], IC := st.IC + L }

/-- One line of main.c `first_scan`: label handling, directive dispatch and
    instruction processing. -/
def first_scan_line (st : AsmState) (line : List Char) : AsmState :=
  let index := skip_spaces_only (line.length + 1) line 0
  if chAtI line index = '\n' ∨ chAtI line index = '\r' ∨ chAtI line index = nulC then st
  else if chAtI line index = ';' then st
  else
    let index2 := is_symbol_definition line index
    let symbol : Bool := decide (index2 > 0)
    let symbol1 : List Char := sliceI line index index2
    let index := if index2 > 0 then space_skip line (index2 + 1) else index
    let directive := is_directive line index
    if 0 < directive ∧ directive < 4 then
      if symbol ∧ (search_symbol st.symbols symbol1).isSome then { st with error := true }
      else
        let st1 :=
          if symbol then
            { st with symbols := st.symbols ++ [{ name := symbol1, value := st.DC, type := 1 }] }
          else st
        match decode_data line index directive st1.DC with
        | none => { st1 with error := true }
        | some r => { st1 with dwords := st1.dwords ++ r.1, DC := r.2 }
    else if directive = 5 then
      let i1 := space_skip line (index + 6)
      if is_symbol line i1 ≤ 0 then { st with error := true } else st
    else if directive = 4 then
      let i1 := space_skip line (index + 7)
      let i2 := is_symbol line i1
      if i2 ≤ 0 then { st with error := true }
      else { st with symbols := st.symbols ++ [{ name := sliceI line i1 i2, value := 0, type := 4 }] }
    else
      if symbol ∧ (search_symbol st.symbols symbol1).isSome then { st with error := true }
      else
        let st1 :=
          if symbol then
            { st with symbols := st.symbols ++ [{ name := symbol1, value := st.IC, type := 2 }] }
          else st
        let op := opcode_in_decimal line index
        if op = -1 then { st1 with error := true }
        else first_scan_instr st1 line index op

/-- main.c `first_scan` over a whole (preprocessed) file, followed by the
    final `update_data_symbols_value(symbol_head, IC)`. -/
def first_scan (lines : List (List Char)) : AsmState :=
  let st := lines.foldl first_scan_line initial_state
  { st with symbols := update_data_symbols_value st.symbols st.IC }

/- ===== second pass (main.c second_scan, order.c update_symbol_operands) ===== -/

/-- ARE bits "10": internal reference. -/
def are_internal : List Char := "10".toList

/-- ARE bits "01": external reference. -/
def are_external : List Char := "01".toList

/-- The destination-operand search of order.c `update_symbol_operands`:
    walk the order's word list from its first word and overwrite the first
    word whose content is the ten-zero placeholder with `s`, also returning
    that word's address; `none` when no placeholder is found. -/
def patch_placeholder (s : List Char) : List Wd → Option (List Wd × Int)
  | [] => none
  | w :: rest =>
    if w.word = placeholder10 then some ({ w with word := s } :: rest, w.address)
    else
      match patch_placeholder s rest with
      | some r => some (w :: r.1, r.2)
      | none => none

/-- order.c `update_symbol_operands` for one order: resolve
    `symbol_name1` by patching the word directly after the instruction's
    first word (`curr_order->word->next`), then `symbol_name2` by patching
    the first placeholder word found in the whole word list; external uses
    are appended to the external list (for the first operand with value
    IC + 1, for the second with the patched word's address).  Returns the
    patched order, the external references to append, and the error flag.
    A missing symbol skips the rest of the order (the C `continue`). -/
def update_one_order (syms : List SymEnt) (o : Order) : Order × List SymEnt × Bool :=
  if o.symbol_flag = 0 then (o, [], false)
  else
    let step1 : Order × List SymEnt × Bool × Bool :=
      match o.symbol_name1 with
      | none => (o, [], false, true)
      | some n1 =>
        match search_symbol syms n1 with
        | none => (o, [], true, false)
        | some sym =>
          match o.words with
          | w0 :: w1 :: rest =>
            if sym.type ≠ 4 then
              ({ o with words := w0 ::
                  { w1 with word := decode_number_in_8_bits sym.value ++ are_internal } :: rest },
               [], false, true)
            else
              ({ o with words := w0 ::
                  { w1 with word := decode_number_in_8_bits sym.value ++ are_external } :: rest },
               [{ name := n1, value := o.IC + 1, type := 4 }], false, true)
          | _ => (o, [], false, true)
    let o1 := step1.1
    let ex1 := step1.2.1
    let err1 := step1.2.2.1
    if ¬ step1.2.2.2 then (o1, ex1, err1)
    else
      match o1.symbol_name2 with
      | none => (o1, ex1, err1)
      | some n2 =>
        match search_symbol syms n2 with
        | none => (o1, ex1, true)
        | some sym2 =>
          let s := decode_number_in_8_bits sym2.value ++
                   (if sym2.type ≠ 4 then are_internal else are_external)
          match patch_placeholder s o1.words with
          | none => (o1, ex1, true)
          | some r =>
            if sym2.type ≠ 4 then ({ o1 with words := r.1 }, ex1, err1)
            else ({ o1 with words := r.1 },
                  ex1 ++ [{ name := n2, value := r.2, type := 4 }], err1)

/-- order.c `update_symbol_operands` over the whole order list. -/
def update_symbol_operands (syms : List SymEnt) :
    List Order → (List Order × List SymEnt × Bool)
  | [] => ([], [], false)
  | o :: rest =>
    let r1 := update_one_order syms o
    let r2 := update_symbol_operands syms rest
    (r1.1 :: r2.1, r1.2.1 ++ r2.2.1, r1.2.2 || r2.2.2)

/-- One line of main.c `second_scan`: only `.entry` is acted on, setting
    `entries_flag`, requiring the named symbol to exist and upgrading its
    type to 3. -/
def second_scan_line (st : AsmState) (line : List Char) : AsmState :=
  let index := space_skip line 0
  if chAtI line index = '\n' ∨ chAtI line index = '\r' ∨ chAtI line index = nulC then st
  else if chAtI line index = ';' then st
  else
    let index2 := is_symbol_definition line index
    let index := if index2 ≠ 0 then index2 + 1 else index
    let directive := is_directive line index
    if 0 < directive ∧ directive < 5 then st
    else if directive = 5 then
      let st := { st with entries_flag := 1 }
      let i1 := space_skip line (index + 6)
      let i2 := is_symbol line i1
      if i2 = 0 then { st with error := true }
      else
        let name := sliceI line i1 i2
        match search_symbol st.symbols name with
        | none => { st with error := true }
        | some _ => { st with symbols := set_type_first st.symbols name 3 }
    else st

/-- main.c `second_scan`: the `.entry` line loop followed by
    `update_symbol_operands`. -/
def second_scan (st0 : AsmState) (lines : List (List Char)) : AsmState :=
  let st := lines.foldl second_scan_line st0
  let r := update_symbol_operands st.symbols st.orders
  { st with orders := r.1, externals := st.externals ++ r.2.1,
            error := st.error || r.2.2 }

/-- The per-file pipeline of main.c `main` (steps 488-507): first pass,
    second pass (skipped after a first-pass error), then the data-word
    address shift `update_data(D_word_head, IC)`. -/
def assemble (lines : List (List Char)) : AsmState :=
  let s1 := first_scan lines
  if s1.error then s1
  else
    let s2 := second_scan s1 lines
    if s2.error then s2
    else { s2 with dwords := update_data s2.dwords s2.IC }

/- ===== macros.c (preprocessor) ===== -/

/-- macros.h `Macro`: a name and the captured body lines. -/
structure Mcro where
  name : List Char
  body : List (List Char)
deriving DecidableEq, Repr

/-- The preprocessor state: the capture flag `in_macro`, the global macro
    list (`add_macro` prepends, so the newest macro is first), the derived
    output lines, and the error flag. -/
structure PpState where
  in_mcro : Bool
  mcros : List Mcro
  out : List (List Char)
  error : Bool
deriving DecidableEq, Repr

/-- The preprocessor's initial state. -/
def pp_initial : PpState :=
  { in_mcro := false, mcros := [], out := [], error := false }

/-- macros.c `is_macro_start`: the line begins with "mcro " at its very
    first character (`strncmp(line, "mcro ", 5) == 0`). -/
def is_mcro_start (line : List Char) : Bool :=
  strncmp_eq line 0 "mcro ".toList 5

/-- macros.c `is_macro_end`: the line begins with "mcroend". -/
def is_mcro_end (line : List Char) : Bool :=
  strncmp_eq line 0 "mcroend".toList 7

/-- The token loop of macros.c `extract_macro_name` / `is_macro_call`
    (bounded by MAX_LINE_LENGTH - 1 = 80 characters). -/
def extract_token : Nat → List Char → Int → Nat → List Char
  | 0, _, _, _ => []
  | fuel + 1, line, i, j =>
    let c := chAtI line i
    if c ≠ nulC ∧ c ≠ ' ' ∧ c ≠ '\t' ∧ c ≠ '\n' ∧ c ≠ '\r' ∧ j < 80 then
      c :: extract_token fuel line (i + 1) (j + 1)
    else []

/-- macros.c `extract_macro_name`: first token after leading spaces and
    tabs. -/
def extract_mcro_name (line : List Char) : List Char :=
  let i := space_skip_loop (line.length + 1) line 0
  extract_token (line.length + 1) line i 0

/-- macros.c `find_macro`: first macro with the given name. -/
def find_mcro : List Mcro → List Char → Option Mcro
  | [], _ => none
  | m :: rest, name => if m.name = name then some m else find_mcro rest name

/-- macros.c `is_macro_call`: the line's first token equals a defined
    macro's name. -/
def is_mcro_call (mcros : List Mcro) (line : List Char) : Bool :=
  (find_mcro mcros (extract_mcro_name line)).isSome

/-- macros.c `is_valid_macro_name`: non-empty and distinct from the 16
    mnemonics and the 5 directive names. -/
def is_valid_mcro_name (name : List Char) : Bool :=
  if name.length = 0 then false
  else if (ORDERS_TABLE ++ [".data".toList, ".string".toList, ".mat".toList,
      ".extern".toList, ".entry".toList]).contains name then false
  else true

/-- One line of macros.c `preprocessor`: the `mcro ` test comes first
    (also while capturing), then the capture branches, then macro calls,
    then the verbatim copy. -/
def pp_step (st : PpState) (line : List Char) : PpState :=
  if is_mcro_start line then
    let i0 := skip_spaces_only (line.length + 1) line 5
    let name := extract_mcro_name (dropI line i0)
    let i1 := skip_spaces_only (line.length + 1) line (i0 + name.length)
    let err1 : Bool :=
      decide (chAtI line i1 ≠ nulC ∧ chAtI line i1 ≠ '\n' ∧ chAtI line i1 ≠ '\r')
    let err2 : Bool := ¬ is_valid_mcro_name name
    { st with in_mcro := true,
              mcros := { name := name, body := [] } :: st.mcros,
              error := st.error || err1 || err2 }
  else if st.in_mcro ∧ ¬ is_mcro_end line then
    match st.mcros with
    | [] => st
    | m :: rest => { st with mcros := { m with body := m.body ++ [line] } :: rest }
  else if st.in_mcro ∧ is_mcro_end line then
    let i := skip_spaces_only (line.length + 1) line 7
    let err : Bool :=
      decide (chAtI line i ≠ nulC ∧ chAtI line i ≠ '\n' ∧ chAtI line i ≠ '\r')
    { st with in_mcro := false, error := st.error || err }
  else if is_mcro_call st.mcros line then
    match find_mcro st.mcros (extract_mcro_name line) with
    | some m => { st with out := st.out ++ m.body }
    | none => st
  else { st with out := st.out ++ [line] }

/-- macros.c `preprocessor` over a whole source file. -/
def preprocess (lines : List (List Char)) : PpState :=
  lines.foldl pp_step pp_initial

/- ===== Claim theorems ===== -/

/-- The scenario of a symbolic destination behind an immediate-zero source:
    `mov #0, X` / `stop` / `X: .data 7`. -/
def prog_zero_src : List (List Char) :=
  ["mov #0, X\n".toList, "stop\n".toList, "X: .data 7\n".toList]

/-- C1 counterexample: for `mov #0, X` the instruction's words after the
    second pass are the first word, the immediate-zero word patched with
    X's encoding (address 101), and the destination placeholder still equal
    to "0000000000" (address 102) — the destination word is not the one
    patched, contrary to the claim. -/
theorem claim1_counterexample :
    ((assemble prog_zero_src).orders.headD (new_order 0)).symbol_name2 = some ("X".toList) ∧
    ((assemble prog_zero_src).orders.headD (new_order 0)).words.map
        (fun w => (w.word, w.address)) =
      [("0000000100".toList, 100), ("0110100010".toList, 101), (placeholder10, 102)] ∧
    (assemble prog_zero_src).error = false := by decide

/-- C1 amended: the second pass locates the destination's "placeholder" as
    the first word whose content equals "0000000000" in the instruction's
    entire word list, starting from the instruction's first word (not after
    the source operand's word), and overwrites it with the 8-bit symbol
    value and the ARE bits; hence for an instruction with an immediate-zero
    source operand and a symbolic destination it is the immediate word, not
    the destination word, that is patched (concrete conjunct: in
    `prog_zero_src` the immediate word carries X's encoding 104 with ARE
    "10" while the destination word stays all zeros). -/
theorem claim1_amended (s : List Char) (a b : List Wd) (z : Wd)
    (h1 : z.word = placeholder10) (h2 : ∀ w ∈ a, w.word ≠ placeholder10) :
    patch_placeholder s (a ++ z :: b) = some (a ++ { z with word := s } :: b, z.address) ∧
    ((assemble prog_zero_src).orders.headD (new_order 0)).words.map Wd.word =
      ["0000000100".toList, decode_number_in_8_bits 104 ++ are_internal, placeholder10] := by
  refine ⟨?_, by decide⟩
  induction a with
  | nil => simp [patch_placeholder, h1]
  | cons w rest ih =>
    have hw : w.word ≠ placeholder10 := h2 w (List.mem_cons_self w rest)
    have ih2 := ih (fun x hx => h2 x (List.mem_cons_of_mem w hx))
    simp only [List.cons_append, patch_placeholder, if_neg hw, List.append_eq, ih2]

/-- Witness for the amended C1 at a concrete word list. -/
theorem claim1_amended_witness :
    patch_placeholder ("0110100010".toList)
        ([{ word := "0000000100".toList, address := 100, wtype := 1 }] ++
          { word := placeholder10, address := 101, wtype := 0 } ::
          [{ word := placeholder10, address := 102, wtype := 0 }]) =
      some ([{ word := "0000000100".toList, address := 100, wtype := 1 }] ++
          { ({ word := placeholder10, address := 101, wtype := 0 } : Wd) with
              word := "0110100010".toList } ::
          [{ word := placeholder10, address := 102, wtype := 0 }], 101) ∧
    ((assemble prog_zero_src).orders.headD (new_order 0)).words.map Wd.word =
      ["0000000100".toList, decode_number_in_8_bits 104 ++ are_internal, placeholder10] :=
  claim1_amended ("0110100010".toList)
    [{ word := "0000000100".toList, address := 100, wtype := 1 }]
    [{ word := placeholder10, address := 102, wtype := 0 }]
    { word := placeholder10, address := 101, wtype := 0 }
    (by decide) (by decide)

/-- The partially filled matrix declaration of scenario S4. -/
def prog_mat : List (List Char) := ["M: .mat [2][2] 1,2\n".toList]

/-- A matrix declaration without values. -/
def prog_mat_empty : List (List Char) := ["M2: .mat [2][2]\n".toList]

/-- C2 counterexample: for `M: .mat [2][2] 1,2` pass one appends 2 data
    words and DC becomes 2, not the R*C = 4 words and DC = 4 the claim
    states. -/
theorem claim2_counterexample :
    (first_scan prog_mat).dwords.length = 2 ∧ (first_scan prog_mat).DC = 2 ∧
    ¬ ((first_scan prog_mat).dwords.length = 4 ∧ (first_scan prog_mat).DC = 4) := by decide

/-- Amended-claim side: the supplied values of a `.mat` value list, read
    with the same control flow as the value loop `mat_data_values` (one
    integer per loop iteration). -/
def mat_supplied_values : Nat → List Char → Int → List Int
  | 0, _, _ => []
  | fuel + 1, line, index =>
    if chAtI line index = '\n' ∨ chAtI line index = nulC then []
    else
      let i1 := space_skip line index
      if ¬ isDigitC (chAtI line i1) ∧ chAtI line i1 ≠ '-' ∧ chAtI line i1 ≠ '+' then []
      else
        let i2 := dd_skip_to_comma (line.length + 2) line i1
        let i3 := if chAtI line i2 = ',' then i2 + 1 else i2
        str_to_int (dropI line i1) :: mat_supplied_values fuel line i3

/-- Amended-claim side: exactly one data word per supplied value, 10-bit
    encoded, at consecutive addresses starting at DC — and nothing else
    (no zero padding). -/
def words_for_values (DC : Int) : List Int → List Wd
  | [] => []
  | v :: vs => { word := decode_number v, address := DC, wtype := 0 } :: words_for_values (DC + 1) vs

/-- C2 amended: for every `.mat [R][C] v1,v2,...` directive with at least
    one supplied value, pass one appends exactly one data word per supplied
    value in row-major order and DC increases by the number of supplied
    values — no zero words pad the remaining cells (only a `.mat` with no
    values reserves R*C cells, via `save_place`, without appending any
    word).  Universally: on every line, start index, DC and fuel, the `.mat`
    value loop of `decode_data` produces precisely the one-word-per-value
    list `words_for_values` of its supplied values at consecutive addresses
    from DC, with DC increased by their number.  In particular
    `M: .mat [2][2] 1,2` produces the two data words 0000000001, 0000000010
    at DC 0..1 and DC = 2, while `M2: .mat [2][2]` produces no data word
    and DC = 4. -/
theorem claim2_amended (fuel : Nat) (line : List Char) (index DC : Int) :
    mat_data_values fuel line index DC =
      (words_for_values DC (mat_supplied_values fuel line index),
       DC + ((mat_supplied_values fuel line index).length : Int)) ∧
    (first_scan prog_mat).dwords =
      [{ word := "0000000001".toList, address := 0, wtype := 0 },
       { word := "0000000010".toList, address := 1, wtype := 0 }] ∧
    (first_scan prog_mat).DC = 2 ∧ (first_scan prog_mat).error = false ∧
    (first_scan prog_mat_empty).dwords = [] ∧
    (first_scan prog_mat_empty).DC = 4 ∧ (first_scan prog_mat_empty).error = false := by
  refine ⟨?_, by decide, by decide, by decide, by decide, by decide, by decide⟩
  induction fuel generalizing index DC with
  | zero => simp [mat_data_values, mat_supplied_values, words_for_values]
  | succ f ih =>
    simp only [mat_data_values, mat_supplied_values]
    split_ifs with hA hB
    · simp [words_for_values]
    · simp [words_for_values]
    all_goals
      rw [ih]
      simp only [words_for_values, List.length_cons]
      refine Prod.ext rfl ?_
      push_cast
      ring

/-- Two identical `.extern` declarations. -/
def prog_extern2 : List (List Char) := [".extern E\n".toList, ".extern E\n".toList]

/-- A label later redeclared external. -/
def prog_label_extern : List (List Char) := ["L: .data 1\n".toList, ".extern L\n".toList]

/-- C3 counterexample: after pass one on two `.extern E` lines the main
    symbol table holds the name E twice (and no error is reported), so a
    duplicate `.extern` is not a no-op and names are not unique. -/
theorem claim3_counterexample :
    ((first_scan prog_extern2).symbols.filter (fun s => s.name = "E".toList)).length = 2 ∧
    (first_scan prog_extern2).error = false := by decide

/-- C3 amended: an `.extern NAME` line inserts a new entry (NAME, 0,
    external) into the main symbol table unconditionally, whatever the
    table already holds, and reports no error; hence a duplicate `.extern`
    yields two entries for the name, and `.extern` naming an existing
    non-external label is not reported as an error and also yields a second
    entry (concrete conjuncts for `L: .data 1` followed by `.extern L`). -/
theorem claim3_amended (st : AsmState) :
    first_scan_line st (".extern E\n".toList) =
      { st with symbols := st.symbols ++ [{ name := "E".toList, value := 0, type := 4 }] } ∧
    (first_scan prog_label_extern).error = false ∧
    (first_scan prog_label_extern).symbols.map (fun s => (s.name, s.type)) =
      [("L".toList, 1), ("L".toList, 4)] := by
  refine ⟨rfl, by decide, by decide⟩

/-- Scenario S2: data then label use. -/
def prog_s2 : List (List Char) :=
  ["MAIN: mov X, r3\n".toList, "stop\n".toList, "X: .data 7\n".toList]

/-- C4 counterexample: in scenario S2 the symbol X resolves to 104 (mov
    X, r3 occupies 100..102 and stop 103, so ICF = 104), not to the 103 the
    claim states. -/
theorem claim4_counterexample :
    search_symbol (assemble prog_s2).symbols ("X".toList) =
      some { name := "X".toList, value := 104, type := 1 } ∧
    ((104 : Int) = 103 → False) := by decide

/-- C4 amended: for the three-line input `MAIN: mov X, r3` / `stop` /
    `X: .data 7`, the assembler produces MAIN = 100 (code) and X = 104
    after the data-symbol shift (ICF = 104); the instruction's first word
    is 0000011100 at 100, the placeholder is patched in pass two to
    0110100010 (8-bit encoding of 104 with ARE "10") at 101, the register
    word 0000001100 sits at 102, stop's word 1111000000 at 103, and the
    data word 0000000111 lands at address 104. -/
theorem claim4_amended :
    (assemble prog_s2).error = false ∧
    search_symbol (assemble prog_s2).symbols ("MAIN".toList) =
      some { name := "MAIN".toList, value := 100, type := 2 } ∧
    search_symbol (assemble prog_s2).symbols ("X".toList) =
      some { name := "X".toList, value := 104, type := 1 } ∧
    (assemble prog_s2).orders.map (fun o => o.words.map (fun w => (w.word, w.address))) =
      [[("0000011100".toList, 100), ("0110100010".toList, 101), ("0000001100".toList, 102)],
       [("1111000000".toList, 103)]] ∧
    "0110100010".toList = decode_number_in_8_bits 104 ++ are_internal ∧
    (assemble prog_s2).dwords = [{ word := "0000000111".toList, address := 104, wtype := 0 }] := by
  decide

/-- A file whose second pass sets the entries flag. -/
def prog_entry : List (List Char) := ["X: .data 1\n".toList, ".entry X\n".toList]

/-- C7: after both passes on a file containing `.entry X`, `end_system`
    empties all lists and resets IC to 100 and DC to 0, but leaves
    entries_flag at 1, so the global state is *not* restored to its initial
    value before the next source is processed (contrary to the claim and to
    end_system's own comment). -/
theorem claim7_entries_flag_not_reset :
    (end_system (second_scan (first_scan prog_entry) prog_entry)).entries_flag = 1 ∧
    ¬ end_system (second_scan (first_scan prog_entry) prog_entry) = initial_state ∧
    (end_system (second_scan (first_scan prog_entry) prog_entry)).symbols = [] ∧
    (end_system (second_scan (first_scan prog_entry) prog_entry)).orders = [] ∧
    (end_system (second_scan (first_scan prog_entry) prog_entry)).dwords = [] ∧
    (end_system (second_scan (first_scan prog_entry) prog_entry)).externals = [] ∧
    (end_system (second_scan (first_scan prog_entry) prog_entry)).IC = 100 ∧
    (end_system (second_scan (first_scan prog_entry) prog_entry)).DC = 0 := by decide

/-- The one-line file `rts`. -/
def prog_rts : List (List Char) := ["rts\n".toList]

/-- The one-line file `stop`. -/
def prog_stop : List (List Char) := ["stop\n".toList]

/-- C8: pass one *rejects* the line `rts\n` — the code demands
    `space_skip(line, index+3) == -1` (a comma!) after `rts`, while the
    newline gives -2, so the claimed acceptance of a bare `rts` line fails;
    `stop\n` (whose check compares against -2) is accepted. -/
theorem claim8_rts_rejected :
    (first_scan prog_rts).error = true ∧
    space_skip ("rts\n".toList) 3 = -2 ∧
    (first_scan prog_stop).error = false := by decide

/-- Number of words decode.c `decode_operand` appends for an operand of the
    given addressing mode: the value/placeholder word `tmp` always, plus
    the register-pair word `tmp2` exactly when the operand is a matrix
    (the bracket walk sets `flag`). -/
def decode_operand_words (mode : Int) : Int := if mode = 2 then 2 else 1

/-- Number of words main.c `first_scan` emits for an instruction with
    opcode `op` and addressing modes `m1`, `m2`: one word for a 0-operand
    instruction; the first word plus the operand words for 1 operand; for
    2 operands a register/register pair shares a single fused operand word,
    otherwise `decode_operand` runs once per operand. -/
def first_scan_emitted (op m1 m2 : Int) : Int :=
  if number_of_operands op = 0 then 1
  else if number_of_operands op = 1 then 1 + decode_operand_words m2
  else if m1 = 3 ∧ m2 = 3 then 1 + 1
  else 1 + decode_operand_words m1 + decode_operand_words m2

/-- C5: for every valid opcode and pair of addressing modes accepted by
    `validate_operands`, `number_of_lines` equals the number of words pass
    one emits; two register operands always give exactly 2 words; a matrix
    operand contributes 2 operand words where immediate/direct/register
    contribute 1. -/
theorem claim5_word_count (op m1 m2 : Int)
    (hop : 0 ≤ op ∧ op ≤ 15) (h1 : -1 ≤ m1 ∧ m1 ≤ 3) (h2 : -1 ≤ m2 ∧ m2 ≤ 3)
    (hvalid : validate_operands op m1 m2 = 0) :
    number_of_lines m1 m2 = first_scan_emitted op m1 m2 ∧
    (m1 = 3 ∧ m2 = 3 → number_of_lines m1 m2 = 2) ∧
    (¬ (m1 = 3 ∧ m2 = 3) →
      number_of_lines m1 m2 =
        1 + (if m1 = 2 then 2 else if m1 = -1 then 0 else 1)
          + (if m2 = 2 then 2 else if m2 = -1 then 0 else 1)) := by
  obtain ⟨hop1, hop2⟩ := hop
  obtain ⟨h1a, h1b⟩ := h1
  obtain ⟨h2a, h2b⟩ := h2
  interval_cases op <;> interval_cases m1 <;> interval_cases m2 <;> revert hvalid <;> decide

/-- Witness for C5 at mov (opcode 0) with a direct source and register
    destination. -/
theorem claim5_word_count_witness :
    number_of_lines 1 3 = first_scan_emitted 0 1 3 ∧
    ((1 : Int) = 3 ∧ (3 : Int) = 3 → number_of_lines 1 3 = 2) ∧
    (¬ ((1 : Int) = 3 ∧ (3 : Int) = 3) →
      number_of_lines 1 3 =
        1 + (if (1 : Int) = 2 then 2 else if (1 : Int) = -1 then 0 else 1)
          + (if (3 : Int) = 2 then 2 else if (3 : Int) = -1 then 0 else 1)) :=
  claim5_word_count 0 1 3 (by decide) (by decide) (by decide) (by decide)

/-- A nested macro definition inside a capture. -/
def prog_nested : List (List Char) :=
  ["mcro A\n".toList, "mcro B\n".toList, "x\n".toList, "mcroend\n".toList]

/-- C6 counterexample: with `mcro B` on a line inside the capture of macro
    A, the line is not appended to A's body (A's body stays empty); instead
    a new macro B is created and captures the following lines. -/
theorem claim6_counterexample :
    (preprocess prog_nested).mcros =
      [{ name := "B".toList, body := ["x\n".toList] }, { name := "A".toList, body := [] }] ∧
    find_mcro (preprocess prog_nested).mcros ("A".toList) =
      some { name := "A".toList, body := [] } ∧
    (preprocess prog_nested).error = false := by decide

/-- C6 amended: while the preprocessor is capturing, every line that is
    neither `mcroend` nor a `mcro `-start line is appended to the most
    recently defined macro's body; a nested `mcro NAME` line is *not*
    captured — the `mcro ` test precedes the capture test, so it starts a
    new macro definition that receives the following lines (concrete
    conjunct on `prog_nested`). -/
theorem claim6_amended (st : PpState) (line : List Char) (m : Mcro) (rest : List Mcro)
    (hin : st.in_mcro = true) (hstart : is_mcro_start line = false)
    (hend : is_mcro_end line = false) (hm : st.mcros = m :: rest) :
    pp_step st line = { st with mcros := { m with body := m.body ++ [line] } :: rest } ∧
    (preprocess prog_nested).mcros =
      [{ name := "B".toList, body := ["x\n".toList] }, { name := "A".toList, body := [] }] := by
  refine ⟨?_, by decide⟩
  obtain ⟨inm, ms, outl, errf⟩ := st
  dsimp only at hin hm ⊢
  subst hin
  subst hm
  simp [pp_step, hstart, hend]

/-- Witness for the amended C6: a body line inside a capture. -/
theorem claim6_amended_witness :
    pp_step { in_mcro := true, mcros := [{ name := "A".toList, body := [] }],
              out := [], error := false } ("x\n".toList) =
      { in_mcro := true, mcros := [{ name := "A".toList, body := ["x\n".toList] }],
        out := [], error := false } ∧
    (preprocess prog_nested).mcros =
      [{ name := "B".toList, body := ["x\n".toList] }, { name := "A".toList, body := [] }] :=
  claim6_amended
    { in_mcro := true, mcros := [{ name := "A".toList, body := [] }], out := [], error := false }
    ("x\n".toList) { name := "A".toList, body := [] } [] rfl (by decide) (by decide) rfl

/-- C10: a macro definition is recognized only with "mcro " at the very
    first character; a line with leading whitespace does not enter capture
    mode and, when its first token is not a known macro name, is copied
    verbatim to the output. -/
theorem claim10_leading_ws_no_capture (st : PpState) (line : List Char)
    (hws : chAtI line 0 = ' ' ∨ chAtI line 0 = '\t')
    (hin : st.in_mcro = false)
    (hcall : is_mcro_call st.mcros line = false) :
    pp_step st line = { st with out := st.out ++ [line] } := by
  have hstart : is_mcro_start line = false := by
    cases line with
    | nil => rcases hws with h | h <;> exact absurd h (by decide)
    | cons c restl =>
      have hc : c = ' ' ∨ c = '\t' := by
        rcases hws with h | h
        · left
          simpa [chAtI] using h
        · right
          simpa [chAtI] using h
      rcases hc with h | h <;> subst h <;> rfl
  simp [pp_step, hstart, hin, hcall]

/-- Witness for C10: `  mcro M` with leading blanks and no known macros. -/
theorem claim10_leading_ws_no_capture_witness :
    pp_step pp_initial ("  mcro M\n".toList) =
      { pp_initial with out := pp_initial.out ++ ["  mcro M\n".toList] } :=
  claim10_leading_ws_no_capture pp_initial ("  mcro M\n".toList) (by decide) rfl (by decide)
